import Mathlib

/-!
Verification of the stockDataDisplay data-retrieval components.

The Python sources under `src/components/` are shallowly embedded here:
  * `data_grabber.py` — scalar quote retrieval (`get_sp500_price`,
    `get_sofr_rate`), treasury yield-curve retrieval
    (`get_treasury_yield_curve`) and the forex conversion-matrix builder
    (`get_forex_matrix`);
  * `scraper.py` — the HTTP fetch helper (`getResponse`) and the field
    extractor (`getData`).

Python dicts become association lists, pandas series become
`List (Option ℚ)` (a `none` entry models a NaN placeholder), floats become
exact rationals, network fetches become explicit function parameters, and a
caught-exception/None return becomes `Option`/`Except`.
-/

namespace StockData

/-! ### Generic association-list helpers (Python dict access) -/

/-- A successful `List.lookup` result is a member of the list
(`rates[c]` returns a value stored in the dict). -/
theorem lookup_mem {α β : Type} [BEq α] [LawfulBEq α]
    {l : List (α × β)} {a : α} {b : β} (h : l.lookup a = some b) :
    (a, b) ∈ l := by
  induction l with
  | nil => simp [List.lookup] at h
  | cons p t ih =>
    obtain ⟨k, v⟩ := p
    by_cases hk : k = a
    · subst hk
      have hvb : v = b := by simpa [List.lookup] using h
      subst hvb
      exact List.mem_cons_self _ _
    · have hb : (a == k) = false := by simpa using Ne.symm hk
      have ht : t.lookup a = some b := by simpa [List.lookup, hb] using h
      exact List.mem_cons_of_mem _ (ih ht)

/-- A key occurring in the key list of an association list has a
successful lookup (`cur in rates` implies `rates[cur]` succeeds). -/
theorem lookup_isSome_of_mem_keys {α β : Type} [BEq α] [LawfulBEq α]
    {l : List (α × β)} {a : α} (h : a ∈ l.map Prod.fst) :
    (l.lookup a).isSome = true := by
  induction l with
  | nil => simp at h
  | cons p t ih =>
    obtain ⟨k, v⟩ := p
    by_cases hk : k = a
    · subst hk
      simp [List.lookup]
    · have hb : (a == k) = false := by simpa using Ne.symm hk
      have h0 : a = k ∨ a ∈ t.map Prod.fst := by simpa using h
      have h1 : a ∈ t.map Prod.fst := by
        rcases h0 with h2 | h2
        · exact absurd h2.symm hk
        · exact h2
      simpa [List.lookup, hb] using ih h1

/-- A key absent from the key list has a failing lookup
(`cur not in rates`). -/
theorem lookup_eq_none_of_not_mem_keys {α β : Type} [BEq α] [LawfulBEq α]
    {l : List (α × β)} {a : α} (h : a ∉ l.map Prod.fst) :
    l.lookup a = none := by
  induction l with
  | nil => simp [List.lookup]
  | cons p t ih =>
    obtain ⟨k, v⟩ := p
    have h2 : ¬(a = k ∨ a ∈ t.map Prod.fst) := by simpa using h
    push_neg at h2
    have hb : (a == k) = false := by
      simpa using h2.1
    simpa [List.lookup, hb] using ih h2.2

/-! ### Forex conversion matrix (`get_forex_matrix`, data_grabber.py) -/

/-- The rate table parsed from the API response: `data.get("rates", {})`,
a dict from currency code to rate against the reference base. -/
abbrev RateTable := List (String × ℚ)

/-- The dict's key list, `rates.keys()`. -/
def keysOf (rates : RateTable) : List String := rates.map Prod.fst

/-- Dict access `rates[c]`; every call site guarantees the key is present,
so the default value is never produced. -/
def rateOf (rates : RateTable) (c : String) : ℚ := (rates.lookup c).getD 0

/-- The nested loop of `get_forex_matrix`: for each row currency `i` and
column currency `j` of the (filtered) currency list, the cell is
`rates[j] / rates[i]`. -/
def buildMatrix (rates : RateTable) (currencies : List String) :
    List (String × List (String × ℚ)) :=
  currencies.map (fun i =>
    (i, currencies.map (fun j => (j, rateOf rates j / rateOf rates i))))

/-- `get_forex_matrix` (data_grabber.py lines 125–180) after the HTTP
fetch succeeded and produced `rates`: rejects an empty rate table, defaults
the currency list to all keys when `currencies is None`, otherwise filters
it to the keys present in the table and rejects an empty filtered list,
then builds the pairwise quotient matrix. -/
def get_forex_matrix (rates : RateTable) (currencies : Option (List String)) :
    Option (List (String × List (String × ℚ))) :=
  if rates.isEmpty then none
  else
    match currencies with
    | none => some (buildMatrix rates (keysOf rates))
    | some cs =>
        let cs2 := cs.filter (fun c => (rates.lookup c).isSome)
        if cs2.isEmpty then none else some (buildMatrix rates cs2)

/-- Mapping a list through a key-preserving pairing keeps the key list. -/
theorem map_fst_pair_map {α β : Type} (L : List α) (g : α → β) :
    (L.map (fun i => (i, g i))).map Prod.fst = L := by
  induction L with
  | nil => rfl
  | cons a t ih => simp [ih]

/-- Each row of `buildMatrix` is labelled by a currency of the list, and
its cells are the quotients `rateOf j / rateOf i`. -/
theorem buildMatrix_row (rates : RateTable) (L : List String)
    {i : String} {row : List (String × ℚ)}
    (h : (i, row) ∈ buildMatrix rates L) :
    i ∈ L ∧ row = L.map (fun j => (j, rateOf rates j / rateOf rates i)) := by
  unfold buildMatrix at h
  rcases List.mem_map.1 h with ⟨c, hc, hceq⟩
  cases hceq
  exact ⟨hc, rfl⟩

/-- A cell of a `buildMatrix` row is labelled by a currency of the list and
holds the quotient of the looked-up rates. -/
theorem buildMatrix_cell (rates : RateTable) (L : List String)
    {i : String} {row : List (String × ℚ)} {j : String} {v : ℚ}
    (hrow : (i, row) ∈ buildMatrix rates L) (hcell : (j, v) ∈ row) :
    j ∈ L ∧ v = rateOf rates j / rateOf rates i := by
  rcases buildMatrix_row rates L hrow with ⟨_, hr⟩
  subst hr
  rcases List.mem_map.1 hcell with ⟨c, hc, hceq⟩
  cases hceq
  exact ⟨hc, rfl⟩

/-- Any matrix actually returned by `get_forex_matrix` is `buildMatrix`
over some currency list all of whose members are keys of the rate table;
when no currency list was requested, that list is exactly the key list. -/
theorem get_forex_matrix_sources (rates : RateTable) (cs : Option (List String))
    (M : List (String × List (String × ℚ)))
    (h : get_forex_matrix rates cs = some M) :
    ∃ L, M = buildMatrix rates L ∧
      (∀ c ∈ L, (rates.lookup c).isSome = true) ∧
      (cs = none → L = keysOf rates) := by
  unfold get_forex_matrix at h
  by_cases hre : rates.isEmpty
  · rw [if_pos hre] at h
    exact absurd h (by simp)
  · rw [if_neg hre] at h
    cases cs with
    | none =>
        dsimp only at h
        refine ⟨keysOf rates, ?_, ?_, fun _ => rfl⟩
        · have : some (buildMatrix rates (keysOf rates)) = some M := h
          exact (Option.some.injEq _ _ ▸ this).symm
        · intro c hc
          exact lookup_isSome_of_mem_keys hc
    | some cs0 =>
        dsimp only at h
        by_cases hcs : (cs0.filter (fun c => (rates.lookup c).isSome)).isEmpty
        · rw [if_pos hcs] at h
          exact absurd h (by simp)
        · rw [if_neg hcs] at h
          refine ⟨cs0.filter (fun c => (rates.lookup c).isSome), ?_, ?_, ?_⟩
          · exact (Option.some.injEq _ _ ▸ h).symm
          · intro c hc
            exact (List.mem_filter.1 hc).2
          · intro hnone
            exact absurd hnone (by simp)

/-- C1: every entry of a conversion matrix returned by `get_forex_matrix`
is exactly the quotient `R[j] / R[i]` of the fetched rates of its column
currency `j` and row currency `i`. -/
theorem forex_entry_is_rate_quotient (rates : RateTable) (cs : Option (List String))
    (M : List (String × List (String × ℚ)))
    (h : get_forex_matrix rates cs = some M) :
    ∀ i row, (i, row) ∈ M → ∀ j v, (j, v) ∈ row →
      ∃ ri rj, rates.lookup i = some ri ∧ rates.lookup j = some rj ∧ v = rj / ri := by
  rcases get_forex_matrix_sources rates cs M h with ⟨L, hM, hL, -⟩
  subst hM
  intro i row hrow j v hcell
  have hi := (buildMatrix_row rates L hrow).1
  have hj := (buildMatrix_cell rates L hrow hcell).1
  have hv := (buildMatrix_cell rates L hrow hcell).2
  rcases Option.isSome_iff_exists.1 (hL i hi) with ⟨ri, hri⟩
  rcases Option.isSome_iff_exists.1 (hL j hj) with ⟨rj, hrj⟩
  refine ⟨ri, rj, hri, hrj, ?_⟩
  rw [hv]
  simp [rateOf, hri, hrj]

/-- C2: with strictly positive rates, each diagonal entry of the returned
matrix is exactly 1 (by the same quotient formula, with no special case for
`i = j`) and symmetric entries multiply to exactly 1. -/
theorem forex_reciprocal_and_diagonal (rates : RateTable) (cs : Option (List String))
    (M : List (String × List (String × ℚ)))
    (hpos : ∀ p ∈ rates, 0 < p.2)
    (h : get_forex_matrix rates cs = some M) :
    (∀ i row v, (i, row) ∈ M → (i, v) ∈ row → v = 1) ∧
    (∀ i irow j v jrow w, (i, irow) ∈ M → (j, v) ∈ irow →
      (j, jrow) ∈ M → (i, w) ∈ jrow → v * w = 1) := by
  rcases get_forex_matrix_sources rates cs M h with ⟨L, hM, hL, -⟩
  subst hM
  have hratepos : ∀ c ∈ L, 0 < rateOf rates c := by
    intro c hc
    rcases Option.isSome_iff_exists.1 (hL c hc) with ⟨r, hr⟩
    have := hpos _ (lookup_mem hr)
    simpa [rateOf, hr] using this
  constructor
  · intro i row v hrow hcell
    have hv := (buildMatrix_cell rates L hrow hcell).2
    have hi := (buildMatrix_row rates L hrow).1
    rw [hv]
    exact div_self (ne_of_gt (hratepos i hi))
  · intro i irow j v jrow w hirow hv hjrow hw
    have hveq := (buildMatrix_cell rates L hirow hv).2
    have hweq := (buildMatrix_cell rates L hjrow hw).2
    have hip := hratepos i (buildMatrix_row rates L hirow).1
    have hjp := hratepos j (buildMatrix_row rates L hjrow).1
    have hne : rateOf rates i * rateOf rates j ≠ 0 := ne_of_gt (mul_pos hip hjp)
    rw [hveq, hweq, div_mul_div_comm,
      mul_comm (rateOf rates j) (rateOf rates i)]
    exact div_self hne

/-- C3: with no requested currency set, the returned matrix's row labels
and every row's column labels are exactly the keys of the rate table. -/
theorem forex_default_uses_all_keys (rates : RateTable)
    (M : List (String × List (String × ℚ)))
    (h : get_forex_matrix rates none = some M) :
    M.map Prod.fst = keysOf rates ∧
      ∀ p ∈ M, p.2.map Prod.fst = keysOf rates := by
  rcases get_forex_matrix_sources rates none M h with ⟨L, hM, -, hkeys⟩
  have hLk : L = keysOf rates := hkeys rfl
  subst hLk
  subst hM
  constructor
  · exact map_fst_pair_map (keysOf rates) _
  · intro p hp
    obtain ⟨i, row⟩ := p
    have hr := (buildMatrix_row rates (keysOf rates) hp).2
    simpa [hr] using map_fst_pair_map (keysOf rates)
      (fun j => rateOf rates j / rateOf rates i)

/-- C4: a non-empty requested currency set disjoint from the rate-table
keys makes `get_forex_matrix` return an absent result. -/
theorem forex_disjoint_absent (rates : RateTable) (cs : List String)
    (hne : cs ≠ [])
    (hdisj : ∀ c ∈ cs, c ∉ keysOf rates) :
    get_forex_matrix rates (some cs) = none := by
  unfold get_forex_matrix
  by_cases hre : rates.isEmpty
  · rw [if_pos hre]
  · rw [if_neg hre]
    dsimp only
    have hfil : cs.filter (fun c => (rates.lookup c).isSome) = [] := by
      refine List.filter_eq_nil_iff.2 ?_
      intro c hc
      have := lookup_eq_none_of_not_mem_keys (hdisj c hc)
      simp [this]
    simp [hfil]

/-- A concrete two-currency rate table used by the witnesses. -/
def Rtest : RateTable := [("USD", 1), ("EUR", 9/10)]

/-- The row of `Rtest`'s conversion matrix labelled "USD". -/
def rowUSD : List (String × ℚ) := [("USD", 1), ("EUR", 9/10)]

/-- The row of `Rtest`'s conversion matrix labelled "EUR". -/
def rowEUR : List (String × ℚ) := [("USD", 10/9), ("EUR", 1)]

/-- The full conversion matrix of `Rtest`. -/
def Mtest : List (String × List (String × ℚ)) := [("USD", rowUSD), ("EUR", rowEUR)]

/-- Witness for C1 at the concrete table `Rtest` and the pair (USD, EUR). -/
theorem forex_entry_is_rate_quotient_witness :
    ∃ ri rj, Rtest.lookup "USD" = some ri ∧ Rtest.lookup "EUR" = some rj ∧
      (9/10 : ℚ) = rj / ri :=
  forex_entry_is_rate_quotient Rtest (some ["USD", "EUR"]) Mtest
    (by simp [get_forex_matrix, Rtest, Mtest, rowUSD, rowEUR, buildMatrix, keysOf, rateOf, List.lookup, List.filter])
    "USD" rowUSD (by simp [Mtest]) "EUR" (9/10) (by simp [rowUSD])

/-- Witness for C2 at `Rtest`: the (USD, EUR) and (EUR, USD) entries
multiply to 1. -/
theorem forex_reciprocal_witness :
    (∀ p ∈ Rtest, 0 < p.2) ∧ (9/10 : ℚ) * (10/9) = 1 :=
  ⟨by
      intro p hp
      rcases (by simpa [Rtest] using hp :
          p = ("USD", (1 : ℚ)) ∨ p = ("EUR", (9/10 : ℚ))) with hh | hh <;>
        simp [hh],
    (forex_reciprocal_and_diagonal Rtest (some ["USD", "EUR"]) Mtest
        (by
          intro p hp
          rcases (by simpa [Rtest] using hp :
              p = ("USD", (1 : ℚ)) ∨ p = ("EUR", (9/10 : ℚ))) with hh | hh <;>
            simp [hh])
        (by simp [get_forex_matrix, Rtest, Mtest, rowUSD, rowEUR, buildMatrix, keysOf, rateOf, List.lookup, List.filter])).2
      "USD" rowUSD "EUR" (9/10) rowEUR (10/9)
      (by simp [Mtest]) (by simp [rowUSD]) (by simp [Mtest]) (by simp [rowEUR])⟩

/-- Witness for C3 at `Rtest`. -/
theorem forex_default_witness :
    Mtest.map Prod.fst = keysOf Rtest ∧
      ∀ p ∈ Mtest, p.2.map Prod.fst = keysOf Rtest :=
  forex_default_uses_all_keys Rtest Mtest
    (by simp [get_forex_matrix, Rtest, Mtest, rowUSD, rowEUR, buildMatrix, keysOf, rateOf, List.lookup, List.filter])

/-- Witness for C4 at `Rtest` and the disjoint request ["JPY"]. -/
theorem forex_disjoint_witness :
    get_forex_matrix Rtest (some ["JPY"]) = none :=
  forex_disjoint_absent Rtest ["JPY"] (by simp) (by simp [keysOf, Rtest])

/-! ### Scalar quote retrieval and treasury yield curve (data_grabber.py) -/

/-- A pandas time series: entries in time order, a `none` entry standing
for a NaN placeholder. -/
abbrev Series := List (Option ℚ)

/-- `get_sp500_price` after the remote call returned the day's history
`hist`: an empty frame raises (caught, giving `None`); otherwise the
literal last entry of the Close column, `hist.iloc[-1]`, is returned, NaN
included. (The `getD none` branch is unreachable: the list is non-empty
there.) -/
def get_sp500_price (hist : Series) : Option (Option ℚ) :=
  if hist.isEmpty then none else some (hist.getLast?.getD none)

/-- `get_sofr_rate` after `fred.get_series` returned `data`: an empty
series raises (caught, giving `None`); otherwise the literal last entry
`data.iloc[-1]` is returned, NaN included. -/
def get_sofr_rate (data : Series) : Option (Option ℚ) :=
  if data.isEmpty then none else some (data.getLast?.getD none)

/-- `series.dropna().iloc[-1]` in the yield-curve loop: the last entry for
which the series defines a real number; `none` when every entry is NaN, in
which case `.iloc[-1]` raises an index error that the loop's handler
catches. -/
def latestNonNaN (s : Series) : Option ℚ := (s.filterMap id).getLast?

/-- The `rates_mapping` dict of `get_treasury_yield_curve`: term label to
FRED series identifier, for the ten fixed maturities. -/
def rates_mapping : List (String × String) :=
  [("3M", "DGS3MO"), ("6M", "DGS6MO"), ("1Y", "DGS1"), ("2Y", "DGS2"),
   ("3Y", "DGS3"), ("5Y", "DGS5"), ("7Y", "DGS7"), ("10Y", "DGS10"),
   ("20Y", "DGS20"), ("30Y", "DGS30")]

/-- One iteration of the yield-curve loop. `fetch` stands for
`fred.get_series`; `Except.error` models a raising call. A raise, an empty
series, or an all-NaN series (whose `.iloc[-1]` after `dropna()` raises)
is caught by the inner handler and the maturity is skipped (`none`);
otherwise the row `(term, latest_value)` is appended. -/
def fetchMaturity (fetch : String → Except String Series) (term sid : String) :
    Option (String × ℚ) :=
  match fetch sid with
  | Except.error _ => none
  | Except.ok s =>
      if s.isEmpty then none
      else
        match latestNonNaN s with
        | none => none
        | some v => some (term, v)

/-- `get_treasury_yield_curve` (data_grabber.py lines 62–110) with the
per-series fetch passed in: the frame rows are the non-skipped maturities
in mapping order; the outer handler never fires, so the frame itself is
always present. -/
def get_treasury_yield_curve (fetch : String → Except String Series) :
    Option (List (String × ℚ)) :=
  some (rates_mapping.filterMap (fun p => fetchMaturity fetch p.1 p.2))

/-- The rows produced by `filterMap` are counted by the success
predicate. -/
theorem length_filterMap_eq_countP {α β : Type} (f : α → Option β) (l : List α) :
    (l.filterMap f).length = l.countP (fun a => (f a).isSome) := by
  induction l with
  | nil => rfl
  | cons a t ih =>
    cases hfa : f a <;>
      simp [List.filterMap_cons, hfa, List.countP_cons, ih]

/-- C5: the yield-curve result is always a present table with exactly one
row per succeeding maturity, each row produced by its own maturity's
retrieval; when every maturity fails the table is present with zero
rows. -/
theorem treasury_row_per_success (fetch : String → Except String Series) :
    ∃ rows, get_treasury_yield_curve fetch = some rows ∧
      rows.length =
        rates_mapping.countP (fun p => (fetchMaturity fetch p.1 p.2).isSome) ∧
      (∀ row ∈ rows, ∃ p ∈ rates_mapping, fetchMaturity fetch p.1 p.2 = some row) ∧
      ((∀ p ∈ rates_mapping, fetchMaturity fetch p.1 p.2 = none) → rows = []) := by
  refine ⟨_, rfl, length_filterMap_eq_countP _ _, ?_, ?_⟩
  · intro row hrow
    rcases List.mem_filterMap.1 hrow with ⟨p, hp, hfp⟩
    exact ⟨p, hp, hfp⟩
  · intro hall
    exact List.filterMap_eq_nil_iff.2 hall

/-- Witness for C5: with every maturity fetch raising, the result is the
present zero-row table. -/
theorem treasury_row_per_success_witness :
    ∃ rows,
      get_treasury_yield_curve (fun _ => Except.error "HTTP error") = some rows ∧
      rows.length = rates_mapping.countP
        (fun p =>
          (fetchMaturity (fun _ => Except.error "HTTP error") p.1 p.2).isSome) ∧
      (∀ row ∈ rows, ∃ p ∈ rates_mapping,
        fetchMaturity (fun _ => Except.error "HTTP error") p.1 p.2 = some row) ∧
      ((∀ p ∈ rates_mapping,
          fetchMaturity (fun _ => Except.error "HTTP error") p.1 p.2 = none) →
        rows = []) :=
  treasury_row_per_success (fun _ => Except.error "HTTP error")

/-- C8: a trailing NaN never changes a yield-curve maturity's outcome and
a series ending in a defined value selects that value, while the scalar
retrievals return the literal last entry — surfacing the NaN placeholder
itself whenever the very last entry is undefined. -/
theorem last_entry_policies :
    (∀ (term sid : String) (s : Series),
        fetchMaturity (fun _ => Except.ok (s ++ [none])) term sid
          = fetchMaturity (fun _ => Except.ok s) term sid) ∧
    (∀ (s : Series) (v : ℚ), latestNonNaN (s ++ [some v]) = some v) ∧
    (∀ (s : Series) (x : Option ℚ), get_sp500_price (s ++ [x]) = some x) ∧
    (∀ (s : Series) (x : Option ℚ), get_sofr_rate (s ++ [x]) = some x) := by
  have hlast : ∀ (s : Series) (x : Option ℚ), (s ++ [x]).getLast? = some x := by
    intro s x
    simp [List.getLast?_concat]
  refine ⟨?_, ?_, ?_, ?_⟩
  · intro term sid s
    by_cases hs : s.isEmpty
    · have : s = [] := by simpa using hs
      subst this
      simp [fetchMaturity, latestNonNaN]
    · have hne : ((s ++ [none] : Series).isEmpty) = false := by
        simp
      simp [fetchMaturity, hs, hne, latestNonNaN, List.filterMap_append]
  · intro s v
    simp [latestNonNaN, List.filterMap_append, List.getLast?_concat]
  · intro s x
    simp [get_sp500_price, hlast s x]
  · intro s x
    simp [get_sofr_rate, hlast s x]

/-- C9: an empty backing series makes both scalar retrievals return the
absent value; the raise is caught inside the function and nothing
escapes. -/
theorem scalar_empty_series_absent :
    get_sp500_price [] = none ∧ get_sofr_rate [] = none :=
  ⟨rfl, rfl⟩

/-! ### HTML scraping (`scraper.py`) -/

/-- An element of the parsed document tree: tag name, attributes and text
content. -/
structure Element where
  tag : String
  attrs : List (String × String)
  text : String
deriving DecidableEq

/-- A parsed document: its elements in document order, as walked by
BeautifulSoup's `find`. -/
abbrev Doc := List Element

/-- BeautifulSoup attribute filtering: every attribute of the filter dict
must be present on the element with the same value. -/
def matchesAttrs (e : Element) (sel : List (String × String)) : Bool :=
  sel.all (fun p => e.attrs.lookup p.1 == some p.2)

/-- `soup.find(name, attrs)`: the first element with the given tag name
that matches the attribute filter, `None` when there is none. -/
def find (doc : Doc) (name : String) (sel : List (String × String)) :
    Option Element :=
  doc.find? (fun e => e.tag == name && matchesAttrs e sel)

/-- `getData` (scraper.py lines 21–42): `coochribute` is assigned the
result of `soup_object.find('span', html_id)` and then reassigned the
result of `soup_object.find('class', html_id)`; `find` returns `None`
rather than raising `AttributeError` when nothing matches, so neither
`except` arm fires, and the reassigned value is returned. -/
def getData (doc : Doc) (html_id : List (String × String)) : Option Element :=
  let coochribute := find doc "span" html_id
  let coochribute := find doc "class" html_id
  coochribute

/-- Filtering a list by a condition implied by the search predicate does
not change the first match. -/
theorem find?_filter_of_imp {α : Type} (l : List α) (p q : α → Bool)
    (h : ∀ a, p a = true → q a = true) :
    (l.filter q).find? p = l.find? p := by
  induction l with
  | nil => rfl
  | cons a t ih =>
    by_cases hq : q a
    · by_cases hp : p a
      · simp [List.filter_cons, hq, List.find?_cons, hp]
      · simp [List.filter_cons, hq, List.find?_cons, hp, ih]
    · have hp : p a = false := by
        cases hpa : p a
        · rfl
        · exact absurd (h a hpa) (by simpa using hq)
      simp [List.filter_cons, hq, List.find?_cons, hp, ih]

/-- C7: `getData` returns exactly the result of the second lookup, the
search for an element whose tag name is 'class'; deleting every span from
the document changes nothing, so the result never depends on whether a
span matched the selector. -/
theorem getData_is_second_lookup :
    ∀ (doc : Doc) (sel : List (String × String)),
      getData doc sel = find doc "class" sel ∧
      getData (doc.filter (fun e => !(e.tag == "span"))) sel
        = getData doc sel := by
  intro doc sel
  refine ⟨rfl, ?_⟩
  show find (doc.filter fun e => !(e.tag == "span")) "class" sel
      = find doc "class" sel
  apply find?_filter_of_imp
  intro e he
  have htag : e.tag = "class" := by
    rw [Bool.and_eq_true] at he
    exact beq_iff_eq.1 he.1
  simp [htag]

/-- The page used against C6: exactly one element, a span matching the
selector `spanSel`. -/
def spanDoc : Doc := [⟨"span", [("id", "price")], "42.0"⟩]

/-- The attribute filter used by the scraping examples. -/
def spanSel : List (String × String) := [("id", "price")]

/-- C6 counterexample: on a page where exactly one element matches the
selector — the span holding "42.0" — `getData` returns the absent value,
not that element's text content. -/
theorem getData_unique_match_dropped :
    find spanDoc "span" spanSel
        = some ⟨"span", [("id", "price")], "42.0"⟩ ∧
      getData spanDoc spanSel = none := by
  exact ⟨by decide, by decide⟩

/-- C6 amended: `getData` returns an absent value exactly when no element
with tag name 'class' matches the selector, and it never raises; any span
matching the selector is discarded, and when a 'class'-tagged element
matches, `getData` returns that element itself (its fields as parsed, not
its extracted text). -/
theorem getData_absent_iff_no_class_match :
    ∀ (doc : Doc) (sel : List (String × String)),
      (getData doc sel = none ↔ find doc "class" sel = none) ∧
      ∀ e, getData doc sel = some e →
        e ∈ doc ∧ e.tag = "class" ∧ matchesAttrs e sel = true := by
  intro doc sel
  constructor
  · exact Iff.rfl
  · intro e he
    have hfind : find doc "class" sel = some e := he
    have hmem := List.mem_of_find?_eq_some hfind
    have hpred := List.find?_some hfind
    rw [Bool.and_eq_true] at hpred
    exact ⟨hmem, beq_iff_eq.1 hpred.1, hpred.2⟩

/-- The page used by the amended-C6 witness: one element with tag name
'class' matching `spanSel`. -/
def classDoc : Doc := [⟨"class", [("id", "price")], "42.0"⟩]

/-- Witness for the amended C6 at `classDoc`. -/
theorem getData_absent_iff_no_class_match_witness :
    (⟨"class", [("id", "price")], "42.0"⟩ : Element) ∈ classDoc ∧
      (⟨"class", [("id", "price")], "42.0"⟩ : Element).tag = "class" ∧
      matchesAttrs ⟨"class", [("id", "price")], "42.0"⟩ spanSel = true :=
  (getData_absent_iff_no_class_match classDoc spanSel).2 _ (by decide)

/-- An HTTP response as `getResponse` sees it: status code and body. -/
structure HttpResponse where
  status_code : Nat
  content : String

/-- `getResponse` (scraper.py lines 5–19), with `parse` standing for
`BeautifulSoup(response.content, "html.parser")`: any status code other
than 200 raises, otherwise the parsed body is returned. -/
def getResponse (parse : String → Doc) (response : HttpResponse) :
    Except String Doc :=
  if response.status_code ≠ 200 then
    Except.error ("Failed to retrieve data. HTTP Status code: "
      ++ toString response.status_code)
  else Except.ok (parse response.content)

/-- Following the spec's words, for comparison with `getResponse`: a
success HTTP status in the standard sense is one in the 2xx range. -/
def spec_isSuccessStatus (s : Nat) : Bool := 200 ≤ s && s < 300

/-- Whether an `Except` result is a success. -/
def exceptOk {ε α : Type} : Except ε α → Bool
  | Except.ok _ => true
  | Except.error _ => false

/-- C10 counterexample: status 201 is a success status, yet `getResponse`
raises on it instead of returning the parsed body. -/
theorem getResponse_raises_on_success_status :
    spec_isSuccessStatus 201 = true ∧
      getResponse (fun _ => []) ⟨201, ""⟩
        = Except.error "Failed to retrieve data. HTTP Status code: 201" :=
  ⟨rfl, rfl⟩

/-- C10 amended: `getResponse` raises exactly when the status code differs
from 200 — including success statuses other than 200 — and on status 200
returns the response body parsed into a document tree. -/
theorem getResponse_ok_iff_200 (parse : String → Doc) (r : HttpResponse) :
    (exceptOk (getResponse parse r) = true ↔ r.status_code = 200) ∧
      (r.status_code = 200 → getResponse parse r = Except.ok (parse r.content)) := by
  constructor
  · constructor
    · intro hok
      by_contra hne
      simp [getResponse, hne, exceptOk] at hok
    · intro h200
      simp [getResponse, h200, exceptOk]
  · intro h200
    simp [getResponse, h200]

/-- Witness for the amended C10 at status 200. -/
theorem getResponse_ok_iff_200_witness :
    getResponse (fun _ => ([] : Doc)) ⟨200, "page"⟩ = Except.ok [] :=
  (getResponse_ok_iff_200 (fun _ => ([] : Doc)) ⟨200, "page"⟩).2 rfl

end StockData
